import Mathlib

/- Verification development for the grove Traffic Control configuration
   generator (grove/grovetccfg/grovetccfg.go).  The Go source is embedded
   shallowly: Go strings are Lean Strings, Go byte/rune operations are
   modelled structurally on the underlying character lists (so that every
   definition evaluates inside the kernel), Go slices are Lean lists, Go
   maps are association lists, machine integers are Nat/Int, and fallible
   Go functions returning (T, error) become Except String T. -/

set_option maxRecDepth 4000

/- Go strings.Fields / strings.Split / strings.Contains and friends,
   implemented by structural recursion over character lists.  goIsSpace
   covers the ASCII part of unicode.IsSpace, which is all the inputs the
   generator ever sees. -/

def goIsSpace (c : Char) : Bool :=
  c == ' ' || c == '\t' || c == '\n' || c == '\r' || c == '\x0B' || c == '\x0C'

def fieldsAuxL : List Char → List Char → List (List Char)
  | [], acc => if acc.isEmpty then [] else [acc.reverse]
  | c :: cs, acc =>
    if goIsSpace c then
      if acc.isEmpty then fieldsAuxL cs [] else acc.reverse :: fieldsAuxL cs []
    else fieldsAuxL cs (c :: acc)

/-- Go strings.Fields: split around runs of whitespace, no empty fields. -/
def goFields (s : String) : List String := (fieldsAuxL s.data []).map String.mk

/-- Worker for goSplit; the fuel argument is an upper bound on the number of
characters still to be consumed, so the 0 case is never reached when the
fuel starts at the length of the input. -/
def splitOnAuxL (sep : List Char) : Nat → List Char → List Char → List (List Char)
  | _, [], acc => [acc.reverse]
  | 0, s, acc => [acc.reverse ++ s]
  | fuel+1, c :: cs, acc =>
    if List.isPrefixOf sep (c :: cs) then
      acc.reverse :: splitOnAuxL sep fuel (List.drop (sep.length - 1) cs) []
    else splitOnAuxL sep fuel cs (c :: acc)

/-- Go strings.Split for a non-empty separator (the generator never splits
on the empty string): split around each non-overlapping occurrence of sep,
left to right. -/
def goSplit (s sep : String) : List String :=
  if sep.data.isEmpty then [s]
  else (splitOnAuxL sep.data s.data.length s.data []).map String.mk

def containsSubAuxL (sub : List Char) : List Char → Bool
  | [] => sub.isEmpty
  | c :: cs => List.isPrefixOf sub (c :: cs) || containsSubAuxL sub cs

/-- Go strings.Contains. -/
def goContains (s sub : String) : Bool := containsSubAuxL sub.data s.data

/-- Go strings.HasPrefix. -/
def goStartsWith (s pre : String) : Bool := List.isPrefixOf pre.data s.data

/-- Go strings.HasSuffix. -/
def goEndsWith (s suf : String) : Bool := List.isSuffixOf suf.data s.data

/-- Go strings.TrimSuffix. -/
def goTrimSuffix (s suf : String) : String :=
  if goEndsWith s suf then String.mk (s.data.take (s.data.length - suf.data.length)) else s

/-- Go strings.TrimPrefix. -/
def goTrimHead (s pre : String) : String :=
  if goStartsWith s pre then String.mk (s.data.drop pre.data.length) else s

/-- Go strings.Trim: remove every leading and trailing character that occurs
in the cutset (note: the cutset is a set of characters, not a literal). -/
def goTrimCutset (s cutset : String) : String :=
  String.mk (((s.data.dropWhile (fun c => cutset.data.contains c)).reverse.dropWhile
      (fun c => cutset.data.contains c)).reverse)

/-- Go strings.TrimSpace (ASCII part). -/
def goTrimSpace (s : String) : String :=
  String.mk (((s.data.dropWhile goIsSpace).reverse.dropWhile goIsSpace).reverse)

/-- Go strings.ToLower (ASCII part). -/
def goToLower (s : String) : String := String.mk (s.data.map Char.toLower)

/-- Go strings.Replace(s, old, new, -1): replace every occurrence. -/
def goReplaceAll (s old new : String) : String :=
  String.intercalate new (goSplit s old)

/-- The whitespace normalization idiom strings.Join(strings.Fields(s), " ")
used throughout the generator. -/
def normalizeWS (s : String) : String := String.intercalate " " (goFields s)

/- Decimal and hexadecimal digit strings, as accepted by the dtoi/xtoi
   helpers behind Go net.ParseIP of that era (leading zeros accepted). -/

def digitVal (c : Char) : Option Nat :=
  if 48 ≤ c.toNat && c.toNat ≤ 57 then some (c.toNat - 48) else none

def hexVal (c : Char) : Option Nat :=
  if 48 ≤ c.toNat && c.toNat ≤ 57 then some (c.toNat - 48)
  else if 97 ≤ c.toNat && c.toNat ≤ 102 then some (c.toNat - 87)
  else if 65 ≤ c.toNat && c.toNat ≤ 70 then some (c.toNat - 55)
  else none

def decDigitsAux : List Char → Nat → Option Nat
  | [], acc => some acc
  | c :: cs, acc =>
    match digitVal c with
    | some d => decDigitsAux cs (acc * 10 + d)
    | none => none

def decDigits (l : List Char) : Option Nat :=
  if l.isEmpty then none else decDigitsAux l 0

def hexDigitsAux : List Char → Nat → Option Nat
  | [], acc => some acc
  | c :: cs, acc =>
    match hexVal c with
    | some d => hexDigitsAux cs (acc * 16 + d)
    | none => none

def hexDigits (l : List Char) : Option Nat :=
  if l.isEmpty then none else hexDigitsAux l 0

/- Go net.IP values, after parsing, are byte slices of length 4 or 16.
   net.ParseIP always yields a 16-byte slice (dotted-quad addresses are
   stored in IPv4-in-IPv6 form); masking with a 4-byte mask yields a 4-byte
   slice.  We model a slice of length 4 as ip4 with a value < 2^32 and a
   slice of length 16 as ip6 with a value < 2^128, and a nil IP as none at
   the use sites. -/

inductive GoIP where
  | ip4 (v : Nat)
  | ip6 (v : Nat)
deriving DecidableEq

/-- The 16-byte (IPv4-in-IPv6) form of a 32-bit address: ::ffff:a.b.c.d. -/
def v4inV6 (v : Nat) : Nat := 0xffff * 2 ^ 32 + v % 2 ^ 32

/-- Clearing the low (bits - ones) bits of a bits-wide value: the arithmetic
form of ANDing with net.CIDRMask(ones, bits). -/
def maskNat (v ones bits : Nat) : Nat :=
  (v % 2 ^ bits) / 2 ^ (bits - ones) * 2 ^ (bits - ones)

/-- Go (net.IP).Mask with mask = net.CIDRMask(ones, bits): a 16-byte IP
meets a 4-byte mask only if it is IPv4-mapped (else nil), a 4-byte IP meets
a 16-byte mask only if the first 12 mask bytes are 0xff; CIDRMask itself is
nil when ones > bits, and masking with nil gives nil. -/
def GoIP.mask : GoIP → Nat → Nat → Option GoIP
  | .ip6 v, ones, 128 =>
    if ones ≤ 128 then some (.ip6 (maskNat v ones 128)) else none
  | .ip6 v, ones, 32 =>
    if ones ≤ 32 then
      (if v / 2 ^ 32 == 0xffff then some (.ip4 (maskNat (v % 2 ^ 32) ones 32)) else none)
    else none
  | .ip4 v, ones, 32 =>
    if ones ≤ 32 then some (.ip4 (maskNat v ones 32)) else none
  | .ip4 v, ones, 128 =>
    if 96 ≤ ones && ones ≤ 128 then some (.ip4 (maskNat v (ones - 96) 32)) else none
  | _, _, _ => none

/-- The 16-byte value an IP compares as; Go (net.IP).Equal treats a 4-byte
slice and its IPv4-in-IPv6 16-byte form as equal. -/
def GoIP.to16 : GoIP → Nat
  | .ip4 v => v4inV6 v
  | .ip6 v => v

/-- Go (net.IP).Equal lifted to possibly-nil IPs (two nil IPs are equal:
both have length 0). -/
def ipOptEqual : Option GoIP → Option GoIP → Bool
  | some a, some b => a.to16 == b.to16
  | none, none => true
  | _, _ => false

/-- Go *net.IPNet as produced by this generator: an (optionally nil) network
address together with a CIDR mask of MaskOnes leading one bits out of
MaskBits. -/
structure IPNet where
  IP : Option GoIP
  MaskOnes : Nat
  MaskBits : Nat
deriving DecidableEq

/- Go net.ParseIP.  The dispatch scans for the first '.' or ':' character;
   a '.' selects the dotted-quad parser and a ':' the IPv6 parser.  The
   dotted-quad parser needs exactly four all-digit fields each at most 255.
   The IPv6 parser accepts at most one "::", hex groups of value at most
   0xffff, an optional embedded dotted-quad in the final group, and
   requires "::" to stand for at least one zero group. -/

def parseV4 (s : String) : Option Nat :=
  match goSplit s "." with
  | [a, b, c, d] =>
    match decDigits a.data, decDigits b.data, decDigits c.data, decDigits d.data with
    | some av, some bv, some cv, some dv =>
      if av ≤ 255 && bv ≤ 255 && cv ≤ 255 && dv ≤ 255 then
        some (((av * 256 + bv) * 256 + cv) * 256 + dv)
      else none
    | _, _, _, _ => none
  | _ => none

def v6Group (g : List Char) : Option Nat :=
  match hexDigits g with
  | some v => if v ≤ 0xffff then some v else none
  | none => none

/-- Split a non-empty list into its leading part and last element. -/
def splitLast : List α → Option (List α × α)
  | [] => none
  | [x] => some ([], x)
  | x :: y :: xs =>
    match splitLast (y :: xs) with
    | some (l, a) => some (x :: l, a)
    | none => none

/-- One side of an IPv6 address, hex groups only (the part left of "::" can
never end in an embedded dotted-quad, since the dotted-quad must end the
whole address). -/
def v6SideHex (side : String) : Option (List Nat) :=
  if side == "" then some []
  else (goSplit side ":").mapM (fun g => v6Group g.data)

/-- One side of an IPv6 address whose final group may be an embedded
dotted-quad (which occupies two 16-bit groups). -/
def v6SideV4 (side : String) : Option (List Nat) :=
  if side == "" then some []
  else
    match splitLast (goSplit side ":") with
    | none => some []
    | some (front, last) =>
      match front.mapM (fun g => v6Group g.data) with
      | none => none
      | some fv =>
        if goContains last "." then
          match parseV4 last with
          | some v => some (fv ++ [v / 65536, v % 65536])
          | none => none
        else
          match v6Group last.data with
          | some v => some (fv ++ [v])
          | none => none

def v6Combine (gs : List Nat) : Nat := gs.foldl (fun acc g => acc * 65536 + g) 0

def parseV6 (s : String) : Option Nat :=
  match goSplit s "::" with
  | [whole] =>
    match v6SideV4 whole with
    | some gs => if gs.length == 8 then some (v6Combine gs) else none
    | none => none
  | [l, r] =>
    match v6SideHex l, v6SideV4 r with
    | some lg, some rg =>
      if lg.length + rg.length ≤ 7 then
        some (v6Combine (lg ++ List.replicate (8 - lg.length - rg.length) 0 ++ rg))
      else none
    | _, _ => none
  | _ => none

/-- Go net.ParseIP: always returns a 16-byte IP on success (dotted-quad
addresses come back in IPv4-in-IPv6 form). -/
def parseIP (s : String) : Option GoIP :=
  match s.data.find? (fun c => c == '.' || c == ':') with
  | some c =>
    if c == '.' then (parseV4 s).map (fun v => GoIP.ip6 (v4inV6 v))
    else (parseV6 s).map GoIP.ip6
  | none => none

/- makeACL (grovetccfg.go lines 880-929): compile the legacy remap-text
   allow directive into a list of CIDR networks. -/

/-- The mask-widening loop of makeACL: starting from the given prefix
length, decrement until start and end masked compare equal.  Go checks the
equality before every decrement and would also stop at prefix length 0,
where the all-zero mask makes both masked addresses equal for every pair of
parsed IPs (proved below), so the 0 base case is exactly the Go exit. -/
def widenLoop (startIP endIP : GoIP) (allBits : Nat) : Nat → Nat
  | 0 => 0
  | maskBits+1 =>
    if ipOptEqual (startIP.mask (maskBits+1) allBits) (endIP.mask (maskBits+1) allBits) then
      maskBits+1
    else widenLoop startIP endIP allBits maskBits

def widenFrom (startIP endIP : GoIP) (allBits : Nat) : Nat :=
  widenLoop startIP endIP allBits allBits

/-- The token loop of makeACL over remaps[1:], accumulating allowed
networks in order. -/
def aclTokens (remapTxt : String) : List String → List IPNet → Except String (List IPNet)
  | [], allow => .ok allow
  | allowStr :: rest, allow =>
    let allBits : Nat := if goContains allowStr ":" then 128 else 32
    if goContains allowStr "-" then
      match goSplit (goTrimHead allowStr "@src_ip=") "-" with
      | startAddrStr :: endAddrStr :: _ =>
        match parseIP startAddrStr, parseIP endAddrStr with
        | some startIP, some endIP =>
          let maskBits := widenFrom startIP endIP allBits
          aclTokens remapTxt rest
            (allow ++ [⟨startIP.mask maskBits allBits, maskBits, allBits⟩])
        | _, _ => .error ("error parsing allow string: " ++ allowStr ++ ", " ++ remapTxt)
      | _ => .error ("malformed remapTxt '" ++ remapTxt ++ "'")
    else
      let addrStr := goTrimCutset allowStr "@src_ip="
      match parseIP addrStr with
      | none => .error ("error parsing allow string: " ++ allowStr ++ ", " ++ remapTxt)
      | some addr =>
        aclTokens remapTxt rest (allow ++ [⟨addr.mask allBits allBits, allBits, allBits⟩])

/-- makeACL: turn the remap_text ACL field into grove allow networks.  A
text not led by the token @action=allow compiles to no restriction (not an
error). -/
def makeACL (remapTxtIn : String) : Except String (List IPNet) :=
  let remapTxt := normalizeWS remapTxtIn
  if goStartsWith remapTxt "@action=allow" then
    let remaps := goSplit remapTxt " "
    if remaps.length < 2 then .error ("malformed remapTxt '" ++ remapTxt ++ "'")
    else aclTokens remapTxt (remaps.drop 1) []
  else .ok []

/- Header manipulation structures from grove/web (Hdr, ModHdrs), duplicated
   in grovetccfg.go's imports; only the fields used by the generator. -/

structure Hdr where
  Name : String
  Value : String
deriving DecidableEq

structure ModHdrs where
  Set : List Hdr := []
  Drop : List String := []
deriving DecidableEq

/- makeModHdrs (grovetccfg.go lines 933-985): turn the edge header rewrite
   text into client-bound and origin-bound header operations. -/

/-- The line loop of makeModHdrs over the __RETURN__-separated lines, with
the running toOrigin direction flag (initially true) and the two
accumulators. -/
def modHdrsLines : List String → Bool → ModHdrs → ModHdrs → Except String (ModHdrs × ModHdrs)
  | [], _, toClientList, toOriginList => .ok (toClientList, toOriginList)
  | lineIn :: restLines, toOrigin, toClientList, toOriginList =>
    let line := goTrimSuffix lineIn "[L]"
    match goFields line with
    | [] => modHdrsLines restLines toOrigin toClientList toOriginList
    | [_] => .error ("edge header rewrite: malformed line '" ++ line ++ "'")
    | p0 :: p1 :: parts2 =>
      if p0 == "cond" then
        let toOrigin := if p1 == "%\x7bSEND_RESPONSE_HDR_HOOK\x7d" then false else toOrigin
        let toOrigin := if p1 == "%\x7bSEND_REQUEST_HDR_HOOK\x7d" then true else toOrigin
        modHdrsLines restLines toOrigin toClientList toOriginList
      else if p0 == "set-header" || p0 == "add-header" then
        match parts2 with
        | [] => .error ("edge header rewrite: malformed line '" ++ line ++ "'")
        | v0 :: vrest =>
          let hdr : Hdr := ⟨p1, String.intercalate " " (v0 :: vrest)⟩
          if toOrigin then
            modHdrsLines restLines toOrigin toClientList
              { toOriginList with Set := toOriginList.Set ++ [hdr] }
          else
            modHdrsLines restLines toOrigin
              { toClientList with Set := toClientList.Set ++ [hdr] } toOriginList
      else if p0 == "rm-header" then
        if toOrigin then
          modHdrsLines restLines toOrigin toClientList
            { toOriginList with Drop := toOriginList.Drop ++ [p1] }
        else
          modHdrsLines restLines toOrigin
            { toClientList with Drop := toClientList.Drop ++ [p1] } toOriginList
      else modHdrsLines restLines toOrigin toClientList toOriginList

/-- makeModHdrs: the remapTXT argument is normalized like the source does
but otherwise unused, exactly as in the Go function. -/
def makeModHdrs (edgeHRWIn remapTXTIn : String) : Except String (ModHdrs × ModHdrs) :=
  if edgeHRWIn == "" && remapTXTIn == "" then .ok ({}, {})
  else
    let edgeHRW := normalizeWS edgeHRWIn
    let _remapTXT := normalizeWS remapTXTIn
    if goContains edgeHRW "-header" then
      modHdrsLines (goSplit edgeHRW "__RETURN__") true {} {}
    else .ok ({}, {})

/- The Traffic Ops data model (lib/go-tc), restricted to the fields the
   generator reads. -/

structure Server where
  HostName : String := ""
  DomainName : String := ""
  TCPPort : Nat := 0
  Cachegroup : String := ""
  CDNName : String := ""
  Status : String := ""
deriving DecidableEq

structure CacheGroup where
  Name : String := ""
  ParentName : String := ""
deriving DecidableEq

structure DeliveryService where
  XMLID : String := ""
  Protocol : Int := 0
  QStringIgnore : Int := 0
  CDNName : String := ""
  Type' : String := ""  -- named Type in the Go struct; Type is reserved in Lean
  EdgeHeaderRewrite : String := ""
  RemapText : String := ""
  OrgServerFQDN : String := ""
  DSCP : Int := 0
deriving DecidableEq

structure DeliveryServiceRegex where
  Pattern : String := ""
deriving DecidableEq

structure CDN where
  Name : String := ""
  DomainName : String := ""
deriving DecidableEq

structure CDNSSLKeys where
  DeliveryService : String := ""
  Hostname : String := ""
  CrtB64 : String := ""
  KeyB64 : String := ""
deriving DecidableEq

structure Parameter where
  Name : String := ""
  ConfigFile : String := ""
  Value : String := ""
deriving DecidableEq

/-- Go map lookup over our association-list model of the entity maps. -/
def lookupMap (m : List (String × α)) (k : String) : Option α :=
  (m.find? (fun p => p.1 == k)).map Prod.snd

/- Remap rule output entities (grove/remapdata and grove/remap), restricted
   to the fields the generator writes. -/

structure QueryStringRule where
  Remap : Bool := false
  Cache : Bool := false
deriving DecidableEq

structure RemapRuleTo where
  URL : String := ""
  Weight : Option Float := none
  RetryNum : Option Nat := none
  ProxyURL : String := ""
  RetryCodes : List Nat := []
  Timeout : Option Nat := none

structure RemapRule where
  Name : String := ""
  From : String := ""
  CertificateFile : String := ""
  CertificateKeyFile : String := ""
  PluginsShared : List (String × String) := []
  To : List RemapRuleTo := []
  RetryNum : Option Nat := none
  Timeout : Option Nat := none
  RetryCodes : List Nat := []
  QueryString : QueryStringRule := {}
  DSCP : Int := 0
  ConnectionClose : Bool := false
  ParentSelection : Option String := none
  Allow : List IPNet := []
  Plugins : List (String × ModHdrs) := []

structure RemapRulesStats where
  Allow : List IPNet := []

structure RemapRules where
  Rules : List RemapRule := []
  RetryCodes : List Nat := []
  Timeout : Option Nat := none
  ParentSelection : Option String := none
  Stats : RemapRulesStats := {}
  Plugins : List (String × ModHdrs) := []

/- getParents (grovetccfg.go lines 546-564). -/

def getParents (hostname : String) (servers : List (String × Server))
    (cachegroups : List (String × CacheGroup)) : Except String (List Server) :=
  match lookupMap servers hostname with
  | none => .error "hostname not found in Servers"
  | some server =>
    match lookupMap cachegroups server.Cachegroup with
    | none => .error ("server cachegroup '" ++ server.Cachegroup ++ "' not found in Cachegroups")
    | some cachegroup =>
      .ok ((servers.map Prod.snd).filter (fun s => s.Cachegroup == cachegroup.ParentName))

/-- filterParents (grovetccfg.go lines 566-574). -/
def filterParents (parents : List Server) (include_ : Server → Bool) : List Server :=
  parents.filter include_

/- Protocol expansion (grovetccfg.go lines 576-584 and 732-744). -/

def ProtocolHTTP : Int := 0
def ProtocolHTTPS : Int := 1
def ProtocolHTTPAndHTTPS : Int := 2
def ProtocolHTTPToHTTPS : Int := 3

structure ProtocolStr where
  From : String
  To : String
deriving DecidableEq

/-- The switch on ds.Protocol in createRulesOld, building the list of
(from-scheme, to-scheme) pairs; an unknown protocol value yields no pairs. -/
def protocolStrsFor (protocol : Int) : List ProtocolStr :=
  if protocol == ProtocolHTTP then [⟨"http", "http"⟩]
  else if protocol == ProtocolHTTPS then [⟨"https", "https"⟩]
  else if protocol == ProtocolHTTPAndHTTPS then [⟨"http", "http"⟩, ⟨"https", "https"⟩]
  else if protocol == ProtocolHTTPToHTTPS then [⟨"http", "https"⟩, ⟨"https", "https"⟩]
  else []

/-- trimLiteralRegex (grovetccfg.go lines 587-594).  The Go body slices
s[len(prefix) : len(s)-len(suffix)] = s[4 : len(s)-4]; when the 4-byte
prefix and suffix overlap (a wrapped pattern shorter than 8 bytes, such as
the 6-byte pattern where the low slice bound 4 exceeds the high bound
len-4 = 2), the slice expression panics with a slice-bounds runtime error.
The panic is modelled as none. -/
def trimLiteralRegex (s : String) : Option (String × Bool) :=
  if goStartsWith s ".*\\." && goEndsWith s "\\..*" then
    if 8 ≤ s.data.length then
      some (String.mk ((s.data.drop 4).take (s.data.length - 8)), true)
    else none
  else some (s, false)

/-- buildFrom (grovetccfg.go lines 597-607). -/
def buildFrom (protocol pattern : String) (patternLiteralRegex : Bool)
    (host dsType cdnDomain : String) : String :=
  if !patternLiteralRegex then protocol ++ "://" ++ pattern
  else if goStartsWith dsType "http" then
    protocol ++ "://" ++ host ++ "." ++ pattern ++ "." ++ cdnDomain
  else protocol ++ "://" ++ "edge." ++ pattern ++ "." ++ cdnDomain

/-- dsTypeSkipsMid (grovetccfg.go lines 609-618). -/
def dsTypeSkipsMid (ttypeIn : String) : Bool :=
  let ttype := goToLower ttypeIn
  if ttype == "http_no_cache" || ttype == "http_live" || ttype == "dns_live" then true
  else if goContains ttype "live" && !goContains ttype "natnl" then true
  else false

/-- buildTo (grovetccfg.go lines 621-629): returns the to URL and the proxy
URL (empty when the delivery service type bypasses mid caches). -/
def buildTo (parentServer : Server) (_protocol originURI dsType : String) : String × String :=
  let toURL := originURI
  let proxy :=
    if !dsTypeSkipsMid dsType then
      "http://" ++ parentServer.HostName ++ "." ++ parentServer.DomainName ++ ":" ++
        toString parentServer.TCPPort
    else ""
  (toURL, proxy)

/- Query string policy (grovetccfg.go lines 642-657). -/

def DeliveryServiceQueryStringCacheAndRemap : Int := 0
def DeliveryServiceQueryStringNoCacheRemap : Int := 1
def DeliveryServiceQueryStringNoCacheNoRemap : Int := 2

def getQueryStringRule (dsQstringIgnore : Int) : Except String QueryStringRule :=
  if dsQstringIgnore == DeliveryServiceQueryStringCacheAndRemap then
    .ok { Remap := true, Cache := true }
  else if dsQstringIgnore == DeliveryServiceQueryStringNoCacheRemap then
    .ok { Remap := true, Cache := true }
  else if dsQstringIgnore == DeliveryServiceQueryStringNoCacheNoRemap then
    .ok { Remap := false, Cache := false }
  else
    .error ("unknown delivery service qstringIgnore value '" ++ toString dsQstringIgnore ++ "'")

/- Rule assembly defaults (grovetccfg.go lines 659-667). -/

def DefaultRetryCodes : List Nat := []
def DefaultRuleWeight : Float := 1.0
def DefaultRetryNum : Nat := 5
def DefaultTimeout : Nat := 5000000000
def DefaultRuleConnectionClose : Bool := false
def DefaultRuleParentSelection : String := "consistent-hash"

/-- The key grove/web exports for the shared remap-text plugin datum
(web.RemapTextKey; modelled by its value, which no claim depends on). -/
def RemapTextKey : String := "remap_text"

/-- Lowercase hexadecimal digit character, as emitted by Go's JSON
encoder. -/
def hexDigitChar (n : Nat) : Char :=
  if n < 10 then Char.ofNat (48 + n) else Char.ofNat (87 + n)

/-- Go json.Marshal escaping for one character of a string value: quote
and backslash are backslash-escaped, newline / carriage return / tab get
their short escapes, the remaining control characters become \u00xx, and
the default HTML escaping turns the angle brackets, the ampersand and the
line/paragraph separators into \u-escapes too. -/
def jsonEscapeChar (c : Char) : List Char :=
  if c == '"' then ['\\', '"']
  else if c == '\\' then ['\\', '\\']
  else if c == '\n' then ['\\', 'n']
  else if c == '\r' then ['\\', 'r']
  else if c == '\t' then ['\\', 't']
  else if c == '<' then ['\\', 'u', '0', '0', '3', 'c']
  else if c == '>' then ['\\', 'u', '0', '0', '3', 'e']
  else if c == '&' then ['\\', 'u', '0', '0', '2', '6']
  else if c.toNat < 32 then
    ['\\', 'u', '0', '0', hexDigitChar (c.toNat / 16), hexDigitChar (c.toNat % 16)]
  else if c.toNat == 0x2028 then ['\\', 'u', '2', '0', '2', '8']
  else if c.toNat == 0x2029 then ['\\', 'u', '2', '0', '2', '9']
  else [c]

/-- Go json.Marshal of a string value, used for the remap text.
Marshalling a string never fails, so the error return of json.Marshal is
dropped. -/
def jsonMarshalString (s : String) : String :=
  "\"" ++ String.mk (s.data.flatMap jsonEscapeChar) ++ "\""

/- makeAllowIP / getAllowIP (grovetccfg.go lines 669-697), using Go
   net.ParseCIDR. -/

/-- Go net.ParseCIDR: address left of the first '/', decimal prefix length
right of it, address parsed first as dotted-quad (4-byte space) then as
IPv6 (16-byte space); returns the masked network. -/
def parseCIDR (s : String) : Option IPNet :=
  match goSplit s "/" with
  | addr :: rest0 :: restMore =>
    let maskStr := String.intercalate "/" (rest0 :: restMore)
    let parsed : Option (GoIP × Nat) :=
      match parseV4 addr with
      | some v => some (GoIP.ip6 (v4inV6 v), 32)
      | none =>
        match parseV6 addr with
        | some v => some (GoIP.ip6 v, 128)
        | none => none
    match parsed with
    | none => none
    | some (ip, bits) =>
      match decDigits maskStr.data with
      | none => none
      | some n =>
        if n ≤ bits then some ⟨ip.mask n bits, n, bits⟩ else none
  | _ => none

def makeAllowIP (ips : List String) : Except String (List IPNet) :=
  ips.foldl
    (fun acc ipIn =>
      match acc with
      | .error e => .error e
      | .ok cidrs =>
        let ip := goTrimSpace ipIn
        let ip :=
          if !goContains ip "/" then
            (if goContains ip ":" then ip ++ "/128" else ip ++ "/32")
          else ip
        match parseCIDR ip with
        | none => .error ("error parsing CIDR '" ++ ip ++ "': invalid CIDR address: " ++ ip)
        | some cidrnet => .ok (cidrs ++ [cidrnet]))
    (.ok [])

def getAllowIP (params : List Parameter) : Except String (List IPNet) :=
  let ips := params.foldl
    (fun ips param =>
      if (param.Name == "allow_ip" || param.Name == "allow_ip6") &&
          param.ConfigFile == "astats.config" then
        ips ++ goSplit param.Value ","
      else ips)
    []
  makeAllowIP ips

/-- getCertFileName (grovetccfg.go lines 849-851); os.PathSeparator is "/"
on the target platform, and every "*." in the certificate hostname is
removed. -/
def getCertFileName (cert : CDNSSLKeys) (dir : String) : String :=
  dir ++ "/" ++ goReplaceAll cert.Hostname "*." "" ++ ".crt"

/-- getCertKeyFileName (grovetccfg.go lines 853-855). -/
def getCertKeyFileName (cert : CDNSSLKeys) (dir : String) : String :=
  dir ++ "/" ++ goReplaceAll cert.Hostname "*." "" ++ ".key"

/- createRulesOld (grovetccfg.go lines 699-847), decomposed loop by loop.
   Go url.Parse of the generated proxy URLs ("" or
   "http://host.domain:port" with a decimal port) never fails, so the
   parent loop is total; json.Marshal of a string never fails either. -/

/-- The body of the parent loop in createRulesOld: append one weighted to
destination per parent and (re)assign the per-rule policy fields, which in
the source happens inside the loop — so a rule with zero parents keeps the
zero values of all those fields. -/
def parentFold (ds : DeliveryService) (dsType : String) (p : ProtocolStr)
    (queryStringRule : QueryStringRule) (acl : List IPNet)
    (toClientHeaders toOriginHeaders : ModHdrs) : List Server → RemapRule → RemapRule
  | [], rule => rule
  | parent :: rest, rule =>
    let toAndProxy := buildTo parent p.To ds.OrgServerFQDN dsType
    let ruleTo : RemapRuleTo :=
      { URL := toAndProxy.1
        Weight := some DefaultRuleWeight
        RetryNum := some DefaultRetryNum
        ProxyURL := toAndProxy.2
        RetryCodes := DefaultRetryCodes
        Timeout := some DefaultTimeout }
    parentFold ds dsType p queryStringRule acl toClientHeaders toOriginHeaders rest
      { rule with
        To := rule.To ++ [ruleTo]
        RetryNum := some DefaultRetryNum
        Timeout := some DefaultTimeout
        RetryCodes := DefaultRetryCodes
        QueryString := queryStringRule
        DSCP := ds.DSCP
        ConnectionClose := DefaultRuleConnectionClose
        ParentSelection := some DefaultRuleParentSelection
        Allow := acl
        Plugins := [("modify_headers", toClientHeaders),
                    ("modify_parent_request_headers", toOriginHeaders)]
        PluginsShared := [(RemapTextKey, jsonMarshalString ds.RemapText)] }

/-- Build the one rule for a (protocol pair, regex) combination; none when
trimLiteralRegex panics on the pattern (a panic crashes the whole run). -/
def buildRule (hostname : String) (ds : DeliveryService) (parents : List Server)
    (cdn : CDN) (certO : Option CDNSSLKeys) (certDir : String) (dsType : String)
    (queryStringRule : QueryStringRule) (acl : List IPNet)
    (toClientHeaders toOriginHeaders : ModHdrs) (p : ProtocolStr)
    (dsRegex : DeliveryServiceRegex) : Option RemapRule :=
  match trimLiteralRegex dsRegex.Pattern with
  | none => none
  | some patternAndLit =>
    let pattern := patternAndLit.1
    let certFiles : String × String :=
      match certO with
      | some cert =>
        if p.From == "https" then (getCertFileName cert certDir, getCertKeyFileName cert certDir)
        else ("", "")
      | none => ("", "")
    some (parentFold ds dsType p queryStringRule acl toClientHeaders toOriginHeaders parents
      { Name := ds.XMLID ++ "." ++ p.From ++ "." ++ p.To ++ "." ++ pattern
        From := buildFrom p.From pattern patternAndLit.2 hostname dsType cdn.DomainName
        CertificateFile := certFiles.1
        CertificateKeyFile := certFiles.2
        PluginsShared := [] })

/-- The regex loop of createRulesOld for one protocol pair, appending one
rule per regex; a trimLiteralRegex panic aborts the whole computation
(modelled as an error carrying the runtime-error text). -/
def regexLoop (hostname : String) (ds : DeliveryService) (parents : List Server)
    (cdn : CDN) (certO : Option CDNSSLKeys) (certDir : String) (dsType : String)
    (queryStringRule : QueryStringRule) (acl : List IPNet)
    (toClientHeaders toOriginHeaders : ModHdrs) (p : ProtocolStr) :
    List DeliveryServiceRegex → List RemapRule → Except String (List RemapRule)
  | [], acc => .ok acc
  | r :: rest, acc =>
    match buildRule hostname ds parents cdn certO certDir dsType queryStringRule acl
        toClientHeaders toOriginHeaders p r with
    | none =>
      .error ("runtime error: slice bounds out of range trimming pattern '" ++ r.Pattern ++ "'")
    | some rule =>
      regexLoop hostname ds parents cdn certO certDir dsType queryStringRule acl
        toClientHeaders toOriginHeaders p rest (acc ++ [rule])

/-- The protocol-pair loop of createRulesOld; the regex lookup for the
delivery service happens inside this loop and aborts the whole run when the
delivery service has no regexes. -/
def protoLoop (hostname : String) (ds : DeliveryService) (parents : List Server)
    (dsRegexes : List (String × List DeliveryServiceRegex)) (cdn : CDN)
    (certO : Option CDNSSLKeys) (certDir : String) (dsType : String)
    (queryStringRule : QueryStringRule) (acl : List IPNet)
    (toClientHeaders toOriginHeaders : ModHdrs) :
    List ProtocolStr → List RemapRule → Except String (List RemapRule)
  | [], acc => .ok acc
  | p :: rest, acc =>
    match lookupMap dsRegexes ds.XMLID with
    | none => .error ("deliveryservice '" ++ ds.XMLID ++ "' has no regexes")
    | some regexes =>
      match regexLoop hostname ds parents cdn certO certDir dsType queryStringRule acl
          toClientHeaders toOriginHeaders p regexes acc with
      | .error e => .error e
      | .ok acc2 =>
        protoLoop hostname ds parents dsRegexes cdn certO certDir dsType queryStringRule acl
          toClientHeaders toOriginHeaders rest acc2

/-- The per-delivery-service body of createRulesOld's main loop: the rules
this delivery service contributes, .ok [] when it is skipped (unrecognized
type, or ACL that does not compile), .error when its failure aborts the
whole run.  createCertificateFiles is file I/O whose failure is only
logged, so it does not appear. -/
def rulesForDS (hostname : String) (ds : DeliveryService) (parents : List Server)
    (dsRegexes : List (String × List DeliveryServiceRegex)) (cdns : List (String × CDN))
    (dsCerts : List (String × CDNSSLKeys)) (certDir : String) :
    Except String (List RemapRule) :=
  match getQueryStringRule ds.QStringIgnore with
  | .error e =>
    .error ("getting deliveryservice " ++ ds.XMLID ++ " Query String Rule: " ++ e)
  | .ok queryStringRule =>
    match lookupMap cdns ds.CDNName with
    | none => .error ("deliveryservice '" ++ ds.XMLID ++ "' CDN '" ++ ds.CDNName ++ "' not found")
    | some cdn =>
      let protocolStrs := protocolStrsFor ds.Protocol
      let certO := lookupMap dsCerts ds.XMLID
      let dsType := goToLower ds.Type'
      if !goStartsWith dsType "http" && !goStartsWith dsType "dns" then .ok []
      else
        match makeModHdrs ds.EdgeHeaderRewrite ds.RemapText with
        | .error e =>
          .error ("Making headers for delivery service '" ++ ds.XMLID ++ "':" ++ e)
        | .ok headers =>
          match makeACL ds.RemapText with
          | .error _ => .ok []
          | .ok acl =>
            protoLoop hostname ds parents dsRegexes cdn certO certDir dsType
              queryStringRule acl headers.1 headers.2 protocolStrs []

/-- The main loop of createRulesOld over the delivery services,
concatenating each service's rules in order. -/
def rulesLoop (hostname : String) (parents : List Server)
    (dsRegexes : List (String × List DeliveryServiceRegex)) (cdns : List (String × CDN))
    (dsCerts : List (String × CDNSSLKeys)) (certDir : String) :
    List DeliveryService → List RemapRule → Except String (List RemapRule)
  | [], acc => .ok acc
  | ds :: rest, acc =>
    match rulesForDS hostname ds parents dsRegexes cdns dsCerts certDir with
    | .error e => .error e
    | .ok newRules => rulesLoop hostname parents dsRegexes cdns dsCerts certDir rest (acc ++ newRules)

/-- The global plugin block emitted once per run. -/
def globalPlugins : List (String × ModHdrs) :=
  [("modify_response_headers_global", { Set := [⟨"Server", "Grove/0.33"⟩] })]

/-- createRulesOld: assemble the whole remap rule set for the host. -/
def createRulesOld (hostname : String) (dses : List DeliveryService) (parents : List Server)
    (dsRegexes : List (String × List DeliveryServiceRegex)) (cdns : List (String × CDN))
    (hostParams : List Parameter) (dsCerts : List (String × CDNSSLKeys)) (certDir : String) :
    Except String RemapRules :=
  match getAllowIP hostParams with
  | .error e => .error ("getting allowed IPs: " ++ e)
  | .ok allowedIPs =>
    match rulesLoop hostname parents dsRegexes cdns dsCerts certDir dses [] with
    | .error e => .error e
    | .ok rules =>
      .ok { Rules := rules
            RetryCodes := DefaultRetryCodes
            Timeout := some DefaultTimeout
            ParentSelection := some DefaultRuleParentSelection
            Stats := ⟨allowedIPs⟩
            Plugins := globalPlugins }

/-- Whether an Except result is an error. -/
def isErr : Except ε α → Bool
  | .error _ => true
  | .ok _ => false

/- Concrete fixtures used by the witnesses and counterexamples below. -/

/-- A well-formed dual-protocol delivery service. -/
def dsGood : DeliveryService :=
  { XMLID := "good", Protocol := 2, QStringIgnore := 0, CDNName := "cdn1",
    Type' := "HTTP", EdgeHeaderRewrite := "", RemapText := "",
    OrgServerFQDN := "http://origin.example.com", DSCP := 40 }

/-- Identical except for an out-of-range query-string setting. -/
def dsBadQString : DeliveryService :=
  { dsGood with XMLID := "badq", QStringIgnore := 5 }

/-- Identical except for an ACL that does not compile. -/
def dsBadACL : DeliveryService :=
  { dsGood with XMLID := "badacl", RemapText := "@action=allow not.an.ip.addr" }

/-- Identical except for a header-rewrite text that does not compile. -/
def dsBadHdr : DeliveryService :=
  { dsGood with XMLID := "badhdr", EdgeHeaderRewrite := "rm-header" }

/-- Identical except for an unrecognized type. -/
def dsBadType : DeliveryService :=
  { dsGood with XMLID := "badtype", Type' := "UNKNOWN_TYPE" }

/-- Identical except that its first regex is the 6-character wrapped
pattern on which trimLiteralRegex panics. -/
def dsPanic : DeliveryService := { dsGood with XMLID := "pan" }

def cdnsFix : List (String × CDN) := [("cdn1", { Name := "cdn1", DomainName := "example.net" })]

def dsRegexesFix : List (String × List DeliveryServiceRegex) :=
  [("good", [⟨".*\\.foo\\..*"⟩, ⟨"literal2"⟩]),
   ("badq", [⟨"p1"⟩, ⟨"p2"⟩]),
   ("badacl", [⟨"p1"⟩]),
   ("badhdr", [⟨"p1"⟩]),
   ("badtype", [⟨"p1"⟩]),
   ("pan", [⟨".*\\..*"⟩, ⟨"p2"⟩])]

/-- Number of rules in an assembled result, 0 on error. -/
def rulesCount : Except String RemapRules → Nat
  | .ok r => r.Rules.length
  | .error _ => 0

/- General lemmas about the masking arithmetic and the widening loop. -/

theorem maskNat_zero (v bits : Nat) : maskNat v 0 bits = 0 := by
  unfold maskNat
  rw [Nat.sub_zero, Nat.div_eq_of_lt (Nat.mod_lt _ (pow_pos two_pos bits)), Nat.zero_mul]

theorem v4inV6_div (v : Nat) : v4inV6 v / 2 ^ 32 = 0xffff := by
  unfold v4inV6
  rw [Nat.add_comm, Nat.add_mul_div_right _ _ (pow_pos two_pos 32),
    Nat.div_eq_of_lt (Nat.mod_lt _ (pow_pos two_pos 32)), Nat.zero_add]

theorem ip6_mask_zero_128 (v : Nat) : (GoIP.ip6 v).mask 0 128 = some (.ip6 0) := by
  simp [GoIP.mask, maskNat_zero]

theorem v4inV6_div_num (v : Nat) : v4inV6 v / 4294967296 = 65535 := v4inV6_div v

theorem ip6_mask_zero_32 (v : Nat) :
    (GoIP.ip6 (v4inV6 v)).mask 0 32 = some (.ip4 0) := by
  simp [GoIP.mask, v4inV6_div, v4inV6_div_num, maskNat_zero]

theorem widenLoop_le (s e : GoIP) (ab : Nat) : ∀ mb, widenLoop s e ab mb ≤ mb := by
  intro mb
  induction mb with
  | zero => simp [widenLoop]
  | succ k ih =>
    unfold widenLoop
    split
    · exact Nat.le_refl _
    · exact Nat.le_trans ih (Nat.le_succ k)

theorem widenLoop_exit (s e : GoIP) (ab : Nat)
    (h0 : ipOptEqual (s.mask 0 ab) (e.mask 0 ab) = true) :
    ∀ mb, ipOptEqual (s.mask (widenLoop s e ab mb) ab) (e.mask (widenLoop s e ab mb) ab) = true := by
  intro mb
  induction mb with
  | zero => simpa [widenLoop] using h0
  | succ k ih =>
    unfold widenLoop
    split
    · assumption
    · exact ih

theorem widenLoop_max (s e : GoIP) (ab : Nat) :
    ∀ mb k, widenLoop s e ab mb < k → k ≤ mb →
      ipOptEqual (s.mask k ab) (e.mask k ab) = false := by
  intro mb
  induction mb with
  | zero =>
    intro k h1 h2
    simp [widenLoop] at h1
    omega
  | succ m ih =>
    intro k h1 h2
    unfold widenLoop at h1
    split at h1
    · omega
    · rename_i hcond
      by_cases hk : k ≤ m
      · exact ih k h1 hk
      · have hkm : k = m + 1 := by omega
        subst hkm
        simpa using hcond

theorem containsSub_single (c : Char) : ∀ l : List Char, containsSubAuxL [c] l = l.contains c := by
  intro l
  induction l with
  | nil => rfl
  | cons x xs ih =>
    have h2 : (c == x) = decide (c = x) := by
      by_cases h : c = x <;> simp [h]
    simp [containsSubAuxL, List.isPrefixOf, List.contains_cons, ih, h2]

/-- net.ParseIP always returns a 16-byte IP on success. -/
theorem parseIP_some_ip6 (s : String) (ip : GoIP) (h : parseIP s = some ip) :
    ∃ v, ip = GoIP.ip6 v := by
  rcases hf : s.data.find? (fun c => c == '.' || c == ':') with _ | c
  · simp [parseIP, hf] at h
  · by_cases hc : (c == '.') = true
    · cases hv : parseV4 s with
      | none => simp [parseIP, hf, hc, hv] at h
      | some v =>
        simp [parseIP, hf, hc, hv] at h
        exact ⟨v4inV6 v, h.symm⟩
    · cases hv : parseV6 s with
      | none => simp [parseIP, hf, hc, hv] at h
      | some v =>
        simp [parseIP, hf, hc, hv] at h
        exact ⟨v, h.symm⟩

/-- When the parsed string has no colon (as both halves of a colon-free
range token do), a successful net.ParseIP went through the dotted-quad
parser and the result is IPv4-mapped. -/
theorem parseIP_no_colon (s : String) (ip : GoIP) (hc : goContains s ":" = false)
    (h : parseIP s = some ip) : ∃ v, ip = .ip6 (v4inV6 v) := by
  rcases hf : s.data.find? (fun c => c == '.' || c == ':') with _ | c
  · simp [parseIP, hf] at h
  · have hmem : c ∈ s.data := List.mem_of_find?_eq_some hf
    have hpred : (c == '.' || c == ':') = true := by
      have := List.find?_some hf
      simpa using this
    have hcolon : (c == ':') = false := by
      by_contra hne
      have hceq : c = ':' := by
        have hb : (c == ':') = true := by
          cases hbb : (c == ':') with
          | true => rfl
          | false => exact absurd hbb hne
        exact eq_of_beq hb
      subst hceq
      have helem : s.data.contains ':' = true := List.elem_eq_true_of_mem hmem
      rw [goContains, containsSub_single] at hc
      rw [hc] at helem
      exact Bool.false_ne_true helem
    have hdot : (c == '.') = true := by
      rcases Bool.or_eq_true_iff.mp hpred with h1 | h1
      · exact h1
      · rw [hcolon] at h1
        exact absurd h1 Bool.false_ne_true
    cases hv : parseV4 s with
    | none => simp [parseIP, hf, hdot, hv] at h
    | some v =>
      simp [parseIP, hf, hdot, hv] at h
      exact ⟨v, h.symm⟩

/- Lemmas about the per-delivery-service dispositions inside
   createRulesOld. -/

theorem rulesForDS_skip_type (hostname : String) (ds : DeliveryService)
    (parents : List Server) (dsRegexes : List (String × List DeliveryServiceRegex))
    (cdns : List (String × CDN)) (dsCerts : List (String × CDNSSLKeys)) (certDir : String)
    (q : QueryStringRule) (cdn : CDN)
    (hq : getQueryStringRule ds.QStringIgnore = .ok q)
    (hcdn : lookupMap cdns ds.CDNName = some cdn)
    (ht1 : goStartsWith (goToLower ds.Type') "http" = false)
    (ht2 : goStartsWith (goToLower ds.Type') "dns" = false) :
    rulesForDS hostname ds parents dsRegexes cdns dsCerts certDir = .ok [] := by
  simp [rulesForDS, hq, hcdn, ht1, ht2]

theorem rulesForDS_skip_acl (hostname : String) (ds : DeliveryService)
    (parents : List Server) (dsRegexes : List (String × List DeliveryServiceRegex))
    (cdns : List (String × CDN)) (dsCerts : List (String × CDNSSLKeys)) (certDir : String)
    (q : QueryStringRule) (cdn : CDN) (hd : ModHdrs × ModHdrs) (e : String)
    (hq : getQueryStringRule ds.QStringIgnore = .ok q)
    (hcdn : lookupMap cdns ds.CDNName = some cdn)
    (htype : goStartsWith (goToLower ds.Type') "http" = true ∨
      goStartsWith (goToLower ds.Type') "dns" = true)
    (hhdr : makeModHdrs ds.EdgeHeaderRewrite ds.RemapText = .ok hd)
    (hacl : makeACL ds.RemapText = .error e) :
    rulesForDS hostname ds parents dsRegexes cdns dsCerts certDir = .ok [] := by
  rcases htype with ht | ht <;> simp [rulesForDS, hq, hcdn, ht, hhdr, hacl]

theorem rulesForDS_err_hdr (hostname : String) (ds : DeliveryService)
    (parents : List Server) (dsRegexes : List (String × List DeliveryServiceRegex))
    (cdns : List (String × CDN)) (dsCerts : List (String × CDNSSLKeys)) (certDir : String)
    (q : QueryStringRule) (cdn : CDN) (e : String)
    (hq : getQueryStringRule ds.QStringIgnore = .ok q)
    (hcdn : lookupMap cdns ds.CDNName = some cdn)
    (htype : goStartsWith (goToLower ds.Type') "http" = true ∨
      goStartsWith (goToLower ds.Type') "dns" = true)
    (hhdr : makeModHdrs ds.EdgeHeaderRewrite ds.RemapText = .error e) :
    isErr (rulesForDS hostname ds parents dsRegexes cdns dsCerts certDir) = true := by
  rcases htype with ht | ht <;> simp [rulesForDS, hq, hcdn, ht, hhdr, isErr]

theorem rulesLoop_err_of_mem (hostname : String) (parents : List Server)
    (dsRegexes : List (String × List DeliveryServiceRegex)) (cdns : List (String × CDN))
    (dsCerts : List (String × CDNSSLKeys)) (certDir : String) (ds : DeliveryService) :
    ∀ (dses : List DeliveryService) (acc : List RemapRule), ds ∈ dses →
      isErr (rulesForDS hostname ds parents dsRegexes cdns dsCerts certDir) = true →
      isErr (rulesLoop hostname parents dsRegexes cdns dsCerts certDir dses acc) = true := by
  intro dses
  induction dses with
  | nil => intro acc hmem; exact absurd hmem (List.not_mem_nil ds)
  | cons d rest ih =>
    intro acc hmem herr
    rcases List.mem_cons.mp hmem with heq | hmem2
    · subst heq
      cases hr : rulesForDS hostname ds parents dsRegexes cdns dsCerts certDir with
      | error e => simp [rulesLoop, hr, isErr]
      | ok rs => rw [hr] at herr; simp [isErr] at herr
    · cases hr : rulesForDS hostname d parents dsRegexes cdns dsCerts certDir with
      | error e => simp [rulesLoop, hr, isErr]
      | ok rs =>
        simp only [rulesLoop, hr]
        exact ih _ hmem2 herr

theorem rulesLoop_skip (hostname : String) (parents : List Server)
    (dsRegexes : List (String × List DeliveryServiceRegex)) (cdns : List (String × CDN))
    (dsCerts : List (String × CDNSSLKeys)) (certDir : String) (ds : DeliveryService)
    (hskip : rulesForDS hostname ds parents dsRegexes cdns dsCerts certDir = .ok []) :
    ∀ (pre post : List DeliveryService) (acc : List RemapRule),
      rulesLoop hostname parents dsRegexes cdns dsCerts certDir (pre ++ ds :: post) acc =
      rulesLoop hostname parents dsRegexes cdns dsCerts certDir (pre ++ post) acc := by
  intro pre
  induction pre with
  | nil =>
    intro post acc
    simp [rulesLoop, hskip]
  | cons p rest ih =>
    intro post acc
    cases hr : rulesForDS hostname p parents dsRegexes cdns dsCerts certDir with
    | error e => simp [rulesLoop, hr]
    | ok rs =>
      simp only [List.cons_append, rulesLoop, hr]
      exact ih post (acc ++ rs)

theorem createRulesOld_skip (hostname : String) (parents : List Server)
    (dsRegexes : List (String × List DeliveryServiceRegex)) (cdns : List (String × CDN))
    (hostParams : List Parameter) (dsCerts : List (String × CDNSSLKeys)) (certDir : String)
    (ds : DeliveryService) (pre post : List DeliveryService)
    (hskip : rulesForDS hostname ds parents dsRegexes cdns dsCerts certDir = .ok []) :
    createRulesOld hostname (pre ++ ds :: post) parents dsRegexes cdns hostParams dsCerts certDir =
    createRulesOld hostname (pre ++ post) parents dsRegexes cdns hostParams dsCerts certDir := by
  cases ha : getAllowIP hostParams with
  | error e => simp [createRulesOld, ha]
  | ok allowedIPs =>
    simp only [createRulesOld, ha]
    rw [rulesLoop_skip hostname parents dsRegexes cdns dsCerts certDir ds hskip pre post []]

theorem createRulesOld_err_of_mem (hostname : String) (parents : List Server)
    (dsRegexes : List (String × List DeliveryServiceRegex)) (cdns : List (String × CDN))
    (hostParams : List Parameter) (dsCerts : List (String × CDNSSLKeys)) (certDir : String)
    (ds : DeliveryService) (dses : List DeliveryService) (hmem : ds ∈ dses)
    (herr : isErr (rulesForDS hostname ds parents dsRegexes cdns dsCerts certDir) = true) :
    isErr (createRulesOld hostname dses parents dsRegexes cdns hostParams dsCerts certDir) = true := by
  cases ha : getAllowIP hostParams with
  | error e => simp [createRulesOld, ha, isErr]
  | ok allowedIPs =>
    simp only [createRulesOld, ha]
    have hloop := rulesLoop_err_of_mem hostname parents dsRegexes cdns dsCerts certDir ds dses [] hmem herr
    cases hl : rulesLoop hostname parents dsRegexes cdns dsCerts certDir dses [] with
    | error e => simp [isErr]
    | ok rules => rw [hl] at hloop; simp [isErr] at hloop

/- Lemmas about the header-rewrite line loop. -/

/-- A header-rewrite line the parser rejects: exactly one token after
trimming, or a set-header/add-header line with exactly two tokens. -/
def badHdrLine (line : String) : Prop :=
  (goFields (goTrimSuffix line "[L]")).length = 1 ∨
  (∃ p0 p1, goFields (goTrimSuffix line "[L]") = [p0, p1] ∧
    (p0 = "set-header" ∨ p0 = "add-header"))

theorem modHdrsLines_skip_empty (l : String) (rest : List String) (b : Bool) (c o : ModHdrs)
    (h : goFields (goTrimSuffix l "[L]") = []) :
    modHdrsLines (l :: rest) b c o = modHdrsLines rest b c o := by
  simp [modHdrsLines, h]

theorem modHdrsLines_err : ∀ (lines : List String) (b : Bool) (c o : ModHdrs),
    (∃ line ∈ lines, badHdrLine line) → isErr (modHdrsLines lines b c o) = true := by
  intro lines
  induction lines with
  | nil =>
    intro b c o hex
    obtain ⟨line, hmem, _⟩ := hex
    exact absurd hmem (List.not_mem_nil line)
  | cons l rest ih =>
    intro b c o hex
    obtain ⟨line, hmem, hbad⟩ := hex
    cases hparts : goFields (goTrimSuffix l "[L]") with
    | nil =>
      have hrest : line ∈ rest := by
        rcases List.mem_cons.mp hmem with heq | h2
        · subst heq
          rcases hbad with hb | ⟨p0, p1, hlist, _⟩
          · rw [hparts] at hb; simp at hb
          · rw [hparts] at hlist; simp at hlist
        · exact h2
      rw [modHdrsLines_skip_empty l rest b c o hparts]
      exact ih b c o ⟨line, hrest, hbad⟩
    | cons p0 tail =>
      cases tail with
      | nil => simp [modHdrsLines, hparts, isErr]
      | cons p1 tail2 =>
        by_cases hcond : (p0 == "cond") = true
        · have hrest : line ∈ rest := by
            rcases List.mem_cons.mp hmem with heq | h2
            · subst heq
              rcases hbad with hb | ⟨p0', p1', hlist, hp0⟩
              · rw [hparts] at hb; simp at hb
              · rw [hparts] at hlist
                have h1 : p0 = p0' ∧ p1 = p1' ∧ tail2 = [] := by simpa using hlist
                have hpc : p0 = "cond" := eq_of_beq hcond
                rcases hp0 with hs | hs <;> rw [← h1.1, hpc] at hs <;>
                  exact absurd hs (by decide)
            · exact h2
          simp only [modHdrsLines, hparts, hcond, if_true]
          exact ih _ c o ⟨line, hrest, hbad⟩
        · by_cases hsa : (p0 == "set-header" || p0 == "add-header") = true
          · cases tail2 with
            | nil => simp [modHdrsLines, hparts, hcond, hsa, isErr]
            | cons v0 vrest =>
              have hrest : line ∈ rest := by
                rcases List.mem_cons.mp hmem with heq | h2
                · subst heq
                  rcases hbad with hb | ⟨p0', p1', hlist, _⟩
                  · rw [hparts] at hb; simp at hb
                  · rw [hparts] at hlist; simp at hlist
                · exact h2
              simp only [modHdrsLines, hparts, hcond, hsa]
              cases b with
              | true => simpa using ih true c _ ⟨line, hrest, hbad⟩
              | false => simpa using ih false _ o ⟨line, hrest, hbad⟩
          · have hrest : line ∈ rest := by
              rcases List.mem_cons.mp hmem with heq | h2
              · subst heq
                rcases hbad with hb | ⟨p0', p1', hlist, hp0⟩
                · rw [hparts] at hb; simp at hb
                · rw [hparts] at hlist
                  have h1 : p0 = p0' ∧ p1 = p1' ∧ tail2 = [] := by simpa using hlist
                  have hmix : (p0 == "set-header" || p0 == "add-header") = true := by
                    rcases hp0 with hs | hs <;> rw [h1.1, hs] <;> decide
                  exact absurd hmix hsa
              · exact h2
            by_cases hrm : (p0 == "rm-header") = true
            · simp only [modHdrsLines, hparts, hcond, hsa, hrm]
              cases b with
              | true => simpa using ih true c _ ⟨line, hrest, hbad⟩
              | false => simpa using ih false _ o ⟨line, hrest, hbad⟩
            · simp only [modHdrsLines, hparts, hcond, hsa, hrm]
              simpa using ih b c o ⟨line, hrest, hbad⟩

/- Rule counting through the protocol and regex loops. -/

theorem regexLoop_length (hostname : String) (ds : DeliveryService) (parents : List Server)
    (cdn : CDN) (certO : Option CDNSSLKeys) (certDir : String) (dsType : String)
    (q : QueryStringRule) (acl : List IPNet) (tch toh : ModHdrs) (p : ProtocolStr) :
    ∀ (regexes : List DeliveryServiceRegex) (acc : List RemapRule),
      (∀ r ∈ regexes, (trimLiteralRegex r.Pattern).isSome = true) →
      ∃ acc2,
        regexLoop hostname ds parents cdn certO certDir dsType q acl tch toh p regexes acc =
          .ok acc2 ∧
        acc2.length = acc.length + regexes.length := by
  intro regexes
  induction regexes with
  | nil =>
    intro acc _
    exact ⟨acc, rfl, by simp⟩
  | cons r rest ihr =>
    intro acc hgood
    cases htr : trimLiteralRegex r.Pattern with
    | none =>
      have := hgood r (List.mem_cons_self r rest)
      rw [htr] at this
      simp at this
    | some patternAndLit =>
      cases hb : buildRule hostname ds parents cdn certO certDir dsType q acl tch toh p r with
      | none => simp [buildRule, htr] at hb
      | some rule =>
        simp only [regexLoop, hb]
        obtain ⟨acc2, heq, hlen⟩ := ihr (acc ++ [rule])
          (fun x hx => hgood x (List.mem_cons_of_mem r hx))
        refine ⟨acc2, heq, ?_⟩
        rw [hlen, List.length_append, List.length_cons]
        simp
        omega

theorem protoLoop_length (hostname : String) (ds : DeliveryService) (parents : List Server)
    (dsRegexes : List (String × List DeliveryServiceRegex)) (cdn : CDN)
    (certO : Option CDNSSLKeys) (certDir : String) (dsType : String)
    (q : QueryStringRule) (acl : List IPNet) (tch toh : ModHdrs)
    (regexes : List DeliveryServiceRegex)
    (hreg : lookupMap dsRegexes ds.XMLID = some regexes)
    (hgood : ∀ r ∈ regexes, (trimLiteralRegex r.Pattern).isSome = true) :
    ∀ (ps : List ProtocolStr) (acc : List RemapRule),
      ∃ rules,
        protoLoop hostname ds parents dsRegexes cdn certO certDir dsType q acl tch toh ps acc =
          .ok rules ∧
        rules.length = acc.length + ps.length * regexes.length := by
  intro ps
  induction ps with
  | nil =>
    intro acc
    exact ⟨acc, rfl, by simp⟩
  | cons p rest ihp =>
    intro acc
    simp only [protoLoop, hreg]
    obtain ⟨acc2, hre, hlen2⟩ := regexLoop_length hostname ds parents cdn certO certDir dsType
      q acl tch toh p regexes acc hgood
    simp only [hre]
    obtain ⟨rules, heq, hlen⟩ := ihp acc2
    refine ⟨rules, heq, ?_⟩
    rw [hlen, hlen2, List.length_cons]
    ring

/-- Counterexample for claim C1: the delivery service dsPanic satisfies
every condition of the claim — dual protocol, recognized type, compiling
ACL and header policies, exactly two regex patterns — yet the assembler
does not emit 4 rules for it: its first pattern is the 6-character wrapped
pattern on which trimLiteralRegex evaluates the Go slice s[4:2] and the
program panics (modelled as an error), so no rule set is produced at all. -/
theorem c1_counterexample :
    dsPanic.Protocol = ProtocolHTTPAndHTTPS ∧
    goStartsWith (goToLower dsPanic.Type') "http" = true ∧
    makeModHdrs dsPanic.EdgeHeaderRewrite dsPanic.RemapText = .ok ({}, {}) ∧
    makeACL dsPanic.RemapText = .ok [] ∧
    lookupMap dsRegexesFix dsPanic.XMLID = some [⟨".*\\..*"⟩, ⟨"p2"⟩] ∧
    isErr (rulesForDS "host" dsPanic [] dsRegexesFix cdnsFix [] "/ssl") = true :=
  ⟨rfl, rfl, rfl, rfl, rfl, rfl⟩

/-- Claim C1 as amended: for a delivery service with the dual HTTP+HTTPS
protocol policy, a recognized type, a resolvable query-string policy and
CDN, an ACL and a header policy that compile, exactly two regex patterns,
and no regex pattern on which the literal-pattern trim panics (a pattern
carrying both the literal wrapper prefix and suffix must be at least 8
characters long), the assembler emits exactly 4 rules for it (one per
protocol pair and regex); and the protocol expansion maps HTTP, HTTPS,
dual and upgrade policies to exactly the stated scheme pairs. -/
theorem c1_amended_four_rules :
    (∀ (hostname : String) (ds : DeliveryService) (parents : List Server)
      (dsRegexes : List (String × List DeliveryServiceRegex)) (cdns : List (String × CDN))
      (dsCerts : List (String × CDNSSLKeys)) (certDir : String)
      (q : QueryStringRule) (cdn : CDN) (hd : ModHdrs × ModHdrs)
      (regexes : List DeliveryServiceRegex) (acl : List IPNet),
      getQueryStringRule ds.QStringIgnore = .ok q →
      lookupMap cdns ds.CDNName = some cdn →
      (goStartsWith (goToLower ds.Type') "http" = true ∨
        goStartsWith (goToLower ds.Type') "dns" = true) →
      makeModHdrs ds.EdgeHeaderRewrite ds.RemapText = .ok hd →
      makeACL ds.RemapText = .ok acl →
      lookupMap dsRegexes ds.XMLID = some regexes →
      regexes.length = 2 →
      (∀ r ∈ regexes, (trimLiteralRegex r.Pattern).isSome = true) →
      ds.Protocol = ProtocolHTTPAndHTTPS →
      ∃ rules, rulesForDS hostname ds parents dsRegexes cdns dsCerts certDir = .ok rules ∧
        rules.length = 4)
    ∧ protocolStrsFor ProtocolHTTP = [⟨"http", "http"⟩]
    ∧ protocolStrsFor ProtocolHTTPS = [⟨"https", "https"⟩]
    ∧ protocolStrsFor ProtocolHTTPAndHTTPS = [⟨"http", "http"⟩, ⟨"https", "https"⟩]
    ∧ protocolStrsFor ProtocolHTTPToHTTPS = [⟨"http", "https"⟩, ⟨"https", "https"⟩] := by
  refine ⟨?_, rfl, rfl, rfl, rfl⟩
  intro hostname ds parents dsRegexes cdns dsCerts certDir q cdn hd regexes acl
  intro hq hcdn htype hhdr hacl hreg hlen2 hgood hprot
  have hmain : rulesForDS hostname ds parents dsRegexes cdns dsCerts certDir =
      protoLoop hostname ds parents dsRegexes cdn (lookupMap dsCerts ds.XMLID) certDir
        (goToLower ds.Type') q acl hd.1 hd.2 (protocolStrsFor ds.Protocol) [] := by
    rcases htype with ht | ht <;> simp [rulesForDS, hq, hcdn, ht, hhdr, hacl]
  rw [hmain, hprot]
  have hps : protocolStrsFor ProtocolHTTPAndHTTPS = [⟨"http", "http"⟩, ⟨"https", "https"⟩] := rfl
  rw [hps]
  obtain ⟨rules, heq, hlen⟩ := protoLoop_length hostname ds parents dsRegexes cdn
    (lookupMap dsCerts ds.XMLID) certDir (goToLower ds.Type') q acl hd.1 hd.2 regexes hreg hgood
    [⟨"http", "http"⟩, ⟨"https", "https"⟩] []
  refine ⟨rules, heq, ?_⟩
  rw [hlen, hlen2]
  rfl

/-- Witness for c1_amended_four_rules at a concrete dual-protocol delivery
service with two panic-free regexes. -/
theorem c1_amended_four_rules_witness :
    ∃ rules, rulesForDS "host" dsGood [] dsRegexesFix cdnsFix [] "/ssl" = .ok rules ∧
      rules.length = 4 :=
  c1_amended_four_rules.1 "host" dsGood [] dsRegexesFix cdnsFix [] "/ssl"
    { Remap := true, Cache := true } { Name := "cdn1", DomainName := "example.net" }
    ({}, {}) [⟨".*\\.foo\\..*"⟩, ⟨"literal2"⟩] []
    rfl rfl (Or.inl rfl) rfl rfl rfl rfl (by decide) rfl

/-- Counterexample for claim C2: a query-string-rule failure is a failure
affecting a single delivery service and it is not a header-policy failure,
yet it aborts the whole compilation — the batch containing the bad service
compiles to an error, although the remaining service alone yields 4 rules. -/
theorem c2_counterexample :
    isErr (createRulesOld "host" [dsBadQString, dsGood] [] dsRegexesFix cdnsFix [] [] "/ssl")
      = true ∧
    rulesCount (createRulesOld "host" [dsGood] [] dsRegexesFix cdnsFix [] [] "/ssl") = 4 :=
  ⟨rfl, rfl⟩

/-- Claim C2 as amended: only two per-delivery-service failure kinds are
tolerated without aborting the batch — an unrecognized type, and an ACL
that does not compile (with the header policy compiling).  Such a delivery
service is skipped and the rule set is exactly the one for the remaining
delivery services. -/
theorem c2_amended_tolerated_failures (hostname : String) (parents : List Server)
    (dsRegexes : List (String × List DeliveryServiceRegex)) (cdns : List (String × CDN))
    (hostParams : List Parameter) (dsCerts : List (String × CDNSSLKeys)) (certDir : String)
    (ds : DeliveryService) (pre post : List DeliveryService) (q : QueryStringRule) (cdn : CDN)
    (hq : getQueryStringRule ds.QStringIgnore = .ok q)
    (hcdn : lookupMap cdns ds.CDNName = some cdn)
    (hfail :
      (goStartsWith (goToLower ds.Type') "http" = false ∧
        goStartsWith (goToLower ds.Type') "dns" = false) ∨
      ((goStartsWith (goToLower ds.Type') "http" = true ∨
          goStartsWith (goToLower ds.Type') "dns" = true) ∧
        ∃ hd e, makeModHdrs ds.EdgeHeaderRewrite ds.RemapText = .ok hd ∧
          makeACL ds.RemapText = .error e)) :
    createRulesOld hostname (pre ++ ds :: post) parents dsRegexes cdns hostParams dsCerts certDir =
    createRulesOld hostname (pre ++ post) parents dsRegexes cdns hostParams dsCerts certDir := by
  rcases hfail with ⟨ht1, ht2⟩ | ⟨htype, hd, e, hhdr, hacl⟩
  · exact createRulesOld_skip hostname parents dsRegexes cdns hostParams dsCerts certDir ds pre post
      (rulesForDS_skip_type hostname ds parents dsRegexes cdns dsCerts certDir q cdn hq hcdn ht1 ht2)
  · exact createRulesOld_skip hostname parents dsRegexes cdns hostParams dsCerts certDir ds pre post
      (rulesForDS_skip_acl hostname ds parents dsRegexes cdns dsCerts certDir q cdn hd e
        hq hcdn htype hhdr hacl)

/-- Witness for c2_amended_tolerated_failures: dropping a delivery service
whose ACL does not compile leaves exactly the rules of the remaining batch. -/
theorem c2_amended_tolerated_failures_witness :
    createRulesOld "host" ([] ++ dsBadACL :: [dsGood]) [] dsRegexesFix cdnsFix [] [] "/ssl" =
    createRulesOld "host" ([] ++ [dsGood]) [] dsRegexesFix cdnsFix [] [] "/ssl" :=
  c2_amended_tolerated_failures "host" [] dsRegexesFix cdnsFix [] [] "/ssl"
    dsBadACL [] [dsGood] { Remap := true, Cache := true }
    { Name := "cdn1", DomainName := "example.net" } rfl rfl
    (Or.inr ⟨Or.inl rfl, ({}, {}),
      "error parsing allow string: not.an.ip.addr, @action=allow not.an.ip.addr", rfl, rfl⟩)

/-- Claim C3: an ACL parse failure on one delivery service skips exactly
that service (the rule set equals the one for the remaining services, with
no error), while a header-rewrite compilation failure on a delivery service
in the batch aborts the whole run with an error. -/
theorem c3_acl_skips_header_aborts :
    (∀ (hostname : String) (parents : List Server)
      (dsRegexes : List (String × List DeliveryServiceRegex)) (cdns : List (String × CDN))
      (hostParams : List Parameter) (dsCerts : List (String × CDNSSLKeys)) (certDir : String)
      (ds : DeliveryService) (pre post : List DeliveryService)
      (q : QueryStringRule) (cdn : CDN) (hd : ModHdrs × ModHdrs) (e : String),
      getQueryStringRule ds.QStringIgnore = .ok q →
      lookupMap cdns ds.CDNName = some cdn →
      (goStartsWith (goToLower ds.Type') "http" = true ∨
        goStartsWith (goToLower ds.Type') "dns" = true) →
      makeModHdrs ds.EdgeHeaderRewrite ds.RemapText = .ok hd →
      makeACL ds.RemapText = .error e →
      createRulesOld hostname (pre ++ ds :: post) parents dsRegexes cdns hostParams dsCerts
          certDir =
        createRulesOld hostname (pre ++ post) parents dsRegexes cdns hostParams dsCerts certDir)
    ∧ (∀ (hostname : String) (parents : List Server)
      (dsRegexes : List (String × List DeliveryServiceRegex)) (cdns : List (String × CDN))
      (hostParams : List Parameter) (dsCerts : List (String × CDNSSLKeys)) (certDir : String)
      (ds : DeliveryService) (dses : List DeliveryService)
      (q : QueryStringRule) (cdn : CDN) (e : String),
      ds ∈ dses →
      getQueryStringRule ds.QStringIgnore = .ok q →
      lookupMap cdns ds.CDNName = some cdn →
      (goStartsWith (goToLower ds.Type') "http" = true ∨
        goStartsWith (goToLower ds.Type') "dns" = true) →
      makeModHdrs ds.EdgeHeaderRewrite ds.RemapText = .error e →
      isErr (createRulesOld hostname dses parents dsRegexes cdns hostParams dsCerts certDir) =
        true) := by
  constructor
  · intro hostname parents dsRegexes cdns hostParams dsCerts certDir ds pre post q cdn hd e
    intro hq hcdn htype hhdr hacl
    exact createRulesOld_skip hostname parents dsRegexes cdns hostParams dsCerts certDir ds pre
      post (rulesForDS_skip_acl hostname ds parents dsRegexes cdns dsCerts certDir q cdn hd e
        hq hcdn htype hhdr hacl)
  · intro hostname parents dsRegexes cdns hostParams dsCerts certDir ds dses q cdn e
    intro hmem hq hcdn htype hhdr
    exact createRulesOld_err_of_mem hostname parents dsRegexes cdns hostParams dsCerts certDir
      ds dses hmem (rulesForDS_err_hdr hostname ds parents dsRegexes cdns dsCerts certDir q cdn e
        hq hcdn htype hhdr)

/-- Witness for c3_acl_skips_header_aborts: a concrete bad-ACL service is
dropped from the batch without error, and a concrete bad-header service
aborts its batch. -/
theorem c3_acl_skips_header_aborts_witness :
    (createRulesOld "host" ([] ++ dsBadACL :: [dsGood]) [] dsRegexesFix cdnsFix [] [] "/ssl" =
      createRulesOld "host" ([] ++ [dsGood]) [] dsRegexesFix cdnsFix [] [] "/ssl") ∧
    isErr (createRulesOld "host" [dsBadHdr, dsGood] [] dsRegexesFix cdnsFix [] [] "/ssl") =
      true :=
  ⟨c3_acl_skips_header_aborts.1 "host" [] dsRegexesFix cdnsFix [] [] "/ssl"
      dsBadACL [] [dsGood] { Remap := true, Cache := true }
      { Name := "cdn1", DomainName := "example.net" } ({}, {})
      "error parsing allow string: not.an.ip.addr, @action=allow not.an.ip.addr"
      rfl rfl (Or.inl rfl) rfl rfl,
    c3_acl_skips_header_aborts.2 "host" [] dsRegexesFix cdnsFix [] [] "/ssl"
      dsBadHdr [dsBadHdr, dsGood] { Remap := true, Cache := true }
      { Name := "cdn1", DomainName := "example.net" }
      "edge header rewrite: malformed line 'rm-header'"
      (by simp) rfl rfl (Or.inl rfl) rfl⟩

/-- Counterexample for claim C4: on the single-line input
"cond %\x7bSEND_RESPONSE_HDR_HOOK\x7d set-header X-Test foo" the whole
line is a condition line (the switch only inspects the first token), so
makeModHdrs returns two empty operation lists — the client-bound set list
is empty, not [(X-Test, foo)]. -/
theorem c4_counterexample :
    makeModHdrs "cond %\x7bSEND_RESPONSE_HDR_HOOK\x7d set-header X-Test foo" "" =
      .ok ({}, {}) ∧
    ({} : ModHdrs) ≠ { Set := [⟨"X-Test", "foo"⟩] } :=
  ⟨rfl, by decide⟩

/-- Claim C4 as amended: with the __RETURN__ line terminator between the
condition directive and the set-header directive, makeModHdrs compiles the
policy to a client-bound set operation (X-Test, foo) and an origin-bound
list with no operations. -/
theorem c4_amended_client_set_header :
    makeModHdrs "cond %\x7bSEND_RESPONSE_HDR_HOOK\x7d __RETURN__ set-header X-Test foo" "" =
      .ok ({ Set := [⟨"X-Test", "foo"⟩], Drop := [] }, {}) := rfl

/-- Counterexample for claim C7: a policy whose middle line has zero tokens
(fewer than two) compiles without any error — zero-token lines are skipped,
not rejected. -/
theorem c7_counterexample :
    makeModHdrs "rm-header X __RETURN__ __RETURN__ rm-header Y" "" =
      .ok ({}, { Drop := ["X", "Y"] }) ∧
    goSplit (normalizeWS "rm-header X __RETURN__ __RETURN__ rm-header Y") "__RETURN__" =
      ["rm-header X ", " ", " rm-header Y"] ∧
    goFields (goTrimSuffix " " "[L]") = [] :=
  ⟨rfl, rfl, rfl⟩

/-- Claim C7 as amended: in a header-rewrite text that contains "-header"
(otherwise no parsing happens at all), a line with zero tokens is skipped;
a line with exactly one token, or a set-header/add-header line with exactly
two tokens, makes makeModHdrs fail with a malformed-policy error. -/
theorem c7_amended_malformed_lines :
    (∀ (l : String) (rest : List String) (b : Bool) (c o : ModHdrs),
      goFields (goTrimSuffix l "[L]") = [] →
      modHdrsLines (l :: rest) b c o = modHdrsLines rest b c o)
    ∧ (∀ edgeHRW remapTXT : String,
      goContains (normalizeWS edgeHRW) "-header" = true →
      (∃ line ∈ goSplit (normalizeWS edgeHRW) "__RETURN__", badHdrLine line) →
      isErr (makeModHdrs edgeHRW remapTXT) = true) := by
  constructor
  · exact modHdrsLines_skip_empty
  · intro edgeHRW remapTXT hcont hex
    by_cases hemp : (edgeHRW == "" && remapTXT == "") = true
    · have he : edgeHRW = "" := eq_of_beq (Bool.and_eq_true_iff.mp hemp).1
      rw [he] at hcont
      exact absurd hcont (by decide)
    · rw [makeModHdrs, if_neg hemp, if_pos hcont]
      exact modHdrsLines_err _ true {} {} hex

/-- Witness for c7_amended_malformed_lines: a zero-token line is skipped,
and a concrete two-token set-header policy fails. -/
theorem c7_amended_malformed_lines_witness :
    modHdrsLines [" ", "rm-header Z"] true {} {} = modHdrsLines ["rm-header Z"] true {} {} ∧
    isErr (makeModHdrs "set-header A" "") = true :=
  ⟨c7_amended_malformed_lines.1 " " ["rm-header Z"] true {} {} rfl,
    c7_amended_malformed_lines.2 "set-header A" "" rfl
      ⟨"set-header A", by simp [normalizeWS, goSplit, goFields, fieldsAuxL, splitOnAuxL],
        Or.inr ⟨"set-header", "A", rfl, Or.inl rfl⟩⟩⟩

/-- Counterexample for claim C8: the tri-state setting only compiles for
the values 0, 1, 2; the value 3 differs from the no-cache-no-remap value
yet compiles to an error, not to (remap, cache) = (true, true). -/
theorem c8_counterexample :
    isErr (getQueryStringRule 3) = true ∧
    (3 : Int) ≠ DeliveryServiceQueryStringNoCacheNoRemap :=
  ⟨rfl, by decide⟩

/-- Claim C8 as amended: the cache-and-remap (0) and no-cache-remap (1)
settings compile to (remap, cache) = (true, true), the no-cache-no-remap
setting (2) compiles to (false, false), and every other integer value is
an error (which aborts the run for that delivery service's batch). -/
theorem c8_amended_query_string_rule (v : Int) :
    ((v = 0 ∨ v = 1) → getQueryStringRule v = .ok { Remap := true, Cache := true })
    ∧ (v = 2 → getQueryStringRule v = .ok { Remap := false, Cache := false })
    ∧ (v ≠ 0 → v ≠ 1 → v ≠ 2 → isErr (getQueryStringRule v) = true) := by
  refine ⟨?_, ?_, ?_⟩
  · rintro (rfl | rfl) <;> rfl
  · rintro rfl; rfl
  · intro h0 h1 h2
    have e0 : (v == (0 : Int)) = false := beq_eq_false_iff_ne.mpr h0
    have e1 : (v == (1 : Int)) = false := beq_eq_false_iff_ne.mpr h1
    have e2 : (v == (2 : Int)) = false := beq_eq_false_iff_ne.mpr h2
    simp [getQueryStringRule, DeliveryServiceQueryStringCacheAndRemap,
      DeliveryServiceQueryStringNoCacheRemap, DeliveryServiceQueryStringNoCacheNoRemap,
      e0, e1, e2, isErr]

/-- Witness for c8_amended_query_string_rule at the values 0, 2 and 3. -/
theorem c8_amended_query_string_rule_witness :
    getQueryStringRule 0 = .ok { Remap := true, Cache := true } ∧
    getQueryStringRule 2 = .ok { Remap := false, Cache := false } ∧
    isErr (getQueryStringRule 3) = true :=
  ⟨(c8_amended_query_string_rule 0).1 (Or.inl rfl),
    (c8_amended_query_string_rule 2).2.1 rfl,
    (c8_amended_query_string_rule 3).2.2 (by decide) (by decide) (by decide)⟩

/- Fixtures for the getParents claims. -/

def serversFix : List (String × Server) :=
  [("edge", { HostName := "edge", Cachegroup := "cg1" })]

def cachegroupsFix : List (String × CacheGroup) :=
  [("cg1", { Name := "cg1", ParentName := "mid" })]

def serversFix2 : List (String × Server) :=
  [("edge", { HostName := "edge", Cachegroup := "nocg" })]

/-- Claim C9: when the target host and its cache group resolve but no
server's cache group equals the cache group's parent name, getParents
returns an empty list and no error; a missing host, or a host whose cache
group is missing, is a lookup error. -/
theorem c9_getParents_empty_or_error :
    (∀ (servers : List (String × Server)) (cachegroups : List (String × CacheGroup))
      (hostname : String) (server : Server) (cachegroup : CacheGroup),
      lookupMap servers hostname = some server →
      lookupMap cachegroups server.Cachegroup = some cachegroup →
      (∀ s ∈ servers.map Prod.snd, s.Cachegroup ≠ cachegroup.ParentName) →
      getParents hostname servers cachegroups = .ok [])
    ∧ (∀ (servers : List (String × Server)) (cachegroups : List (String × CacheGroup))
      (hostname : String),
      lookupMap servers hostname = none →
      isErr (getParents hostname servers cachegroups) = true)
    ∧ (∀ (servers : List (String × Server)) (cachegroups : List (String × CacheGroup))
      (hostname : String) (server : Server),
      lookupMap servers hostname = some server →
      lookupMap cachegroups server.Cachegroup = none →
      isErr (getParents hostname servers cachegroups) = true) := by
  refine ⟨?_, ?_, ?_⟩
  · intro servers cachegroups hostname server cachegroup h1 h2 hnone
    simp only [getParents, h1, h2]
    have hfil : (servers.map Prod.snd).filter
        (fun s => s.Cachegroup == cachegroup.ParentName) = [] := by
      rw [List.filter_eq_nil_iff]
      intro s hs
      simp [hnone s hs]
    rw [hfil]
  · intro servers cachegroups hostname h1
    simp [getParents, h1, isErr]
  · intro servers cachegroups hostname server h1 h2
    simp [getParents, h1, h2, isErr]

/-- Witness for c9_getParents_empty_or_error on concrete maps: a host whose
cache group's parent owns no servers, a missing host, and a host with a
missing cache group. -/
theorem c9_getParents_empty_or_error_witness :
    getParents "edge" serversFix cachegroupsFix = .ok [] ∧
    isErr (getParents "ghost" serversFix cachegroupsFix) = true ∧
    isErr (getParents "edge" serversFix2 cachegroupsFix) = true :=
  ⟨c9_getParents_empty_or_error.1 serversFix cachegroupsFix "edge"
      { HostName := "edge", Cachegroup := "cg1" } { Name := "cg1", ParentName := "mid" }
      rfl rfl (by decide),
    c9_getParents_empty_or_error.2.1 serversFix cachegroupsFix "ghost" rfl,
    c9_getParents_empty_or_error.2.2 serversFix2 cachegroupsFix "edge"
      { HostName := "edge", Cachegroup := "nocg" } rfl rfl⟩

/-- Claim C5: for a range token whose halves parse as addresses, the ACL
compiler emits the network made of the range start masked at the prefix
length found by the widening loop, at the token's full bit width (32 for a
colon-free token, 128 otherwise); that prefix length is the largest one,
at most the full width, at which start and end masked compare equal; on
10.0.0.1-10.0.0.6 it emits 10.0.0.0/29, which contains 10.0.0.1, and on
2001:db8::1-2001:db8::6 it emits 2001:db8::/125. -/
theorem c5_range_to_cidr :
    (∀ vs ve : Nat,
      ipOptEqual
        ((GoIP.ip6 (v4inV6 vs)).mask
          (widenFrom (.ip6 (v4inV6 vs)) (.ip6 (v4inV6 ve)) 32) 32)
        ((GoIP.ip6 (v4inV6 ve)).mask
          (widenFrom (.ip6 (v4inV6 vs)) (.ip6 (v4inV6 ve)) 32) 32) = true)
    ∧ (∀ vs ve k : Nat,
      widenFrom (.ip6 (v4inV6 vs)) (.ip6 (v4inV6 ve)) 32 < k → k ≤ 32 →
      ipOptEqual ((GoIP.ip6 (v4inV6 vs)).mask k 32) ((GoIP.ip6 (v4inV6 ve)).mask k 32) = false)
    ∧ (∀ vs ve : Nat,
      ipOptEqual
        ((GoIP.ip6 vs).mask (widenFrom (.ip6 vs) (.ip6 ve) 128) 128)
        ((GoIP.ip6 ve).mask (widenFrom (.ip6 vs) (.ip6 ve) 128) 128) = true)
    ∧ (∀ vs ve k : Nat,
      widenFrom (.ip6 vs) (.ip6 ve) 128 < k → k ≤ 128 →
      ipOptEqual ((GoIP.ip6 vs).mask k 128) ((GoIP.ip6 ve).mask k 128) = false)
    ∧ (∀ (remapTxt : String) (rest : List String) (allow : List IPNet)
        (allowStr startAddrStr endAddrStr : String) (pre2 : List String) (startIP endIP : GoIP),
      goContains allowStr "-" = true →
      goSplit (goTrimHead allowStr "@src_ip=") "-" = startAddrStr :: endAddrStr :: pre2 →
      parseIP startAddrStr = some startIP →
      parseIP endAddrStr = some endIP →
      aclTokens remapTxt (allowStr :: rest) allow =
        aclTokens remapTxt rest (allow ++
          [⟨GoIP.mask startIP
              (widenFrom startIP endIP (if goContains allowStr ":" then 128 else 32))
              (if goContains allowStr ":" then 128 else 32),
            widenFrom startIP endIP (if goContains allowStr ":" then 128 else 32),
            (if goContains allowStr ":" then 128 else 32)⟩]))
    ∧ makeACL "@action=allow 10.0.0.1-10.0.0.6" = .ok [⟨some (.ip4 0x0A000000), 29, 32⟩]
    ∧ (GoIP.ip6 (v4inV6 0x0A000001)).mask 29 32 = some (.ip4 0x0A000000)
    ∧ makeACL "@action=allow 2001:db8::1-2001:db8::6" =
      .ok [⟨some (.ip6 (0x2001 * 2 ^ 112 + 0xdb8 * 2 ^ 96)), 125, 128⟩]
    ∧ (GoIP.ip6 (0x2001 * 2 ^ 112 + 0xdb8 * 2 ^ 96 + 1)).mask 125 128 =
      some (.ip6 (0x2001 * 2 ^ 112 + 0xdb8 * 2 ^ 96)) := by
  refine ⟨?_, ?_, ?_, ?_, ?_, rfl, rfl, rfl, rfl⟩
  · intro vs ve
    exact widenLoop_exit _ _ 32 (by rw [ip6_mask_zero_32, ip6_mask_zero_32]; rfl) 32
  · intro vs ve k h1 h2
    exact widenLoop_max _ _ 32 32 k h1 h2
  · intro vs ve
    exact widenLoop_exit _ _ 128 (by rw [ip6_mask_zero_128, ip6_mask_zero_128]; rfl) 128
  · intro vs ve k h1 h2
    exact widenLoop_max _ _ 128 128 k h1 h2
  · intro remapTxt rest allow allowStr startAddrStr endAddrStr pre2 startIP endIP
    intro hdash hsplit hs he
    simp [aclTokens, hdash, hsplit, hs, he, widenFrom]

/-- Witness for c5_range_to_cidr: an IPv4 range (exit at the loop answer,
prefix 30 fails since 29 is the largest) and an IPv6 range (exit at the
loop answer, prefix 126 fails since 125 is the largest), plus the token
loop emitting the widened /128 network for the IPv6 range token. -/
theorem c5_range_to_cidr_witness :
    ipOptEqual
      ((GoIP.ip6 (v4inV6 0x0A000001)).mask
        (widenFrom (.ip6 (v4inV6 0x0A000001)) (.ip6 (v4inV6 0x0A000006)) 32) 32)
      ((GoIP.ip6 (v4inV6 0x0A000006)).mask
        (widenFrom (.ip6 (v4inV6 0x0A000001)) (.ip6 (v4inV6 0x0A000006)) 32) 32) = true ∧
    ipOptEqual ((GoIP.ip6 (v4inV6 0x0A000001)).mask 30 32)
      ((GoIP.ip6 (v4inV6 0x0A000006)).mask 30 32) = false ∧
    ipOptEqual
      ((GoIP.ip6 (0x2001 * 2 ^ 112 + 0xdb8 * 2 ^ 96 + 1)).mask
        (widenFrom (.ip6 (0x2001 * 2 ^ 112 + 0xdb8 * 2 ^ 96 + 1))
          (.ip6 (0x2001 * 2 ^ 112 + 0xdb8 * 2 ^ 96 + 6)) 128) 128)
      ((GoIP.ip6 (0x2001 * 2 ^ 112 + 0xdb8 * 2 ^ 96 + 6)).mask
        (widenFrom (.ip6 (0x2001 * 2 ^ 112 + 0xdb8 * 2 ^ 96 + 1))
          (.ip6 (0x2001 * 2 ^ 112 + 0xdb8 * 2 ^ 96 + 6)) 128) 128) = true ∧
    ipOptEqual ((GoIP.ip6 (0x2001 * 2 ^ 112 + 0xdb8 * 2 ^ 96 + 1)).mask 126 128)
      ((GoIP.ip6 (0x2001 * 2 ^ 112 + 0xdb8 * 2 ^ 96 + 6)).mask 126 128) = false ∧
    aclTokens "@action=allow 2001:db8::1-2001:db8::6" ["2001:db8::1-2001:db8::6"] [] =
      aclTokens "@action=allow 2001:db8::1-2001:db8::6" []
        ([] ++
          [⟨GoIP.mask (.ip6 (0x2001 * 2 ^ 112 + 0xdb8 * 2 ^ 96 + 1))
              (widenFrom (.ip6 (0x2001 * 2 ^ 112 + 0xdb8 * 2 ^ 96 + 1))
                (.ip6 (0x2001 * 2 ^ 112 + 0xdb8 * 2 ^ 96 + 6))
                (if goContains "2001:db8::1-2001:db8::6" ":" then 128 else 32))
              (if goContains "2001:db8::1-2001:db8::6" ":" then 128 else 32),
            widenFrom (.ip6 (0x2001 * 2 ^ 112 + 0xdb8 * 2 ^ 96 + 1))
              (.ip6 (0x2001 * 2 ^ 112 + 0xdb8 * 2 ^ 96 + 6))
              (if goContains "2001:db8::1-2001:db8::6" ":" then 128 else 32),
            (if goContains "2001:db8::1-2001:db8::6" ":" then 128 else 32)⟩]) :=
  ⟨c5_range_to_cidr.1 0x0A000001 0x0A000006,
    c5_range_to_cidr.2.1 0x0A000001 0x0A000006 30 (by decide) (by decide),
    c5_range_to_cidr.2.2.1 (0x2001 * 2 ^ 112 + 0xdb8 * 2 ^ 96 + 1)
      (0x2001 * 2 ^ 112 + 0xdb8 * 2 ^ 96 + 6),
    c5_range_to_cidr.2.2.2.1 (0x2001 * 2 ^ 112 + 0xdb8 * 2 ^ 96 + 1)
      (0x2001 * 2 ^ 112 + 0xdb8 * 2 ^ 96 + 6) 126 (by decide) (by decide),
    c5_range_to_cidr.2.2.2.2.1 "@action=allow 2001:db8::1-2001:db8::6" [] []
      "2001:db8::1-2001:db8::6" "2001:db8::1" "2001:db8::6" []
      (.ip6 (0x2001 * 2 ^ 112 + 0xdb8 * 2 ^ 96 + 1))
      (.ip6 (0x2001 * 2 ^ 112 + 0xdb8 * 2 ^ 96 + 6))
      rfl rfl rfl rfl⟩

/-- Claim C6, evaluated: single IPv4 addresses and the claimed IPv6
address compile to the stated host CIDRs, but the single-address branch
trims the character set "@src_ip=" from BOTH ends of the token
(strings.Trim, where strings.TrimPrefix was intended), so the valid IPv6
address cc::1 loses its leading hex characters and compiles to ::1/128
instead of cc::1/128. -/
theorem c6_single_address_trim_bug :
    makeACL "@action=allow 192.168.1.5" = .ok [⟨some (.ip4 0xC0A80105), 32, 32⟩] ∧
    makeACL "@action=allow 2001:db8::1" =
      .ok [⟨some (.ip6 (0x2001 * 2 ^ 112 + 0xdb8 * 2 ^ 96 + 1)), 128, 128⟩] ∧
    makeACL "@action=allow cc::1" = .ok [⟨some (.ip6 1), 128, 128⟩] ∧
    GoIP.ip6 1 ≠ GoIP.ip6 (0xcc * 2 ^ 112 + 1) :=
  ⟨rfl, rfl, rfl, by decide⟩

/-- Claim C10: net.ParseIP only produces 16-byte IPs (IPv4-mapped ones for
colon-free tokens), masking with prefix length 0 equalizes every such pair
in both the 128-bit and the token-decided 32-bit case, and therefore the
widening loop of makeACL always exits at a prefix length between 0 and the
full bit width with the masked endpoints equal — makeACL is total. -/
theorem c10_widening_loop_terminates :
    (∀ (s : String) (ip : GoIP), parseIP s = some ip → ∃ v, ip = GoIP.ip6 v)
    ∧ (∀ (s : String) (ip : GoIP), goContains s ":" = false → parseIP s = some ip →
      ∃ v, ip = .ip6 (v4inV6 v))
    ∧ (∀ v w : Nat, ipOptEqual ((GoIP.ip6 v).mask 0 128) ((GoIP.ip6 w).mask 0 128) = true)
    ∧ (∀ v w : Nat,
      ipOptEqual ((GoIP.ip6 (v4inV6 v)).mask 0 32) ((GoIP.ip6 (v4inV6 w)).mask 0 32) = true)
    ∧ (∀ (startIP endIP : GoIP) (allBits : Nat),
      ipOptEqual (GoIP.mask startIP 0 allBits) (GoIP.mask endIP 0 allBits) = true →
      widenFrom startIP endIP allBits ≤ allBits ∧
      ipOptEqual (GoIP.mask startIP (widenFrom startIP endIP allBits) allBits)
        (GoIP.mask endIP (widenFrom startIP endIP allBits) allBits) = true) := by
  refine ⟨parseIP_some_ip6, parseIP_no_colon, ?_, ?_, ?_⟩
  · intro v w
    rw [ip6_mask_zero_128, ip6_mask_zero_128]; rfl
  · intro v w
    rw [ip6_mask_zero_32, ip6_mask_zero_32]; rfl
  · intro startIP endIP allBits h0
    exact ⟨widenLoop_le startIP endIP allBits allBits,
      widenLoop_exit startIP endIP allBits h0 allBits⟩

/-- Witness for c10_widening_loop_terminates at concrete addresses. -/
theorem c10_widening_loop_terminates_witness :
    (∃ v, GoIP.ip6 (v4inV6 0x01020304) = GoIP.ip6 v) ∧
    (∃ v, GoIP.ip6 (v4inV6 0x01020304) = GoIP.ip6 (v4inV6 v)) ∧
    (widenFrom (.ip6 (v4inV6 1)) (.ip6 (v4inV6 6)) 32 ≤ 32 ∧
      ipOptEqual
        (GoIP.mask (.ip6 (v4inV6 1)) (widenFrom (.ip6 (v4inV6 1)) (.ip6 (v4inV6 6)) 32) 32)
        (GoIP.mask (.ip6 (v4inV6 6)) (widenFrom (.ip6 (v4inV6 1)) (.ip6 (v4inV6 6)) 32) 32) =
        true) :=
  ⟨c10_widening_loop_terminates.1 "1.2.3.4" (.ip6 (v4inV6 0x01020304)) rfl,
    c10_widening_loop_terminates.2.1 "1.2.3.4" (.ip6 (v4inV6 0x01020304)) rfl rfl,
    c10_widening_loop_terminates.2.2.2.2 (.ip6 (v4inV6 1)) (.ip6 (v4inV6 6)) 32
      (c10_widening_loop_terminates.2.2.2.1 1 6)⟩
